import Mathlib

/-
Verification of the eazye IMAP retrieval library (src/eazye.go) against its
natural-language specification.

Shallow embedding notes:
* The IMAP session (go-imap's `imap.Client`) is an external collaborator; it is
  modelled as an oracle `Session` giving the outcome of every UIDSearch,
  UIDFetch, UIDStore and `mail.ReadMessage` call.
* The output channel of a retrieval call is modelled as the finite list of
  `Response` values the spawned worker pushes before the deferred
  `close(responses)`; the worker additionally leaves a trace of the session
  operations it issued (`Event.fetchOp` / `Event.storeOp`), interleaved with
  the emissions in program order.
* Go `error` values are modelled as `Option String` / `Except String`,
  carrying the exact `fmt.Errorf` wrapper texts of the source.
* Byte slices (`[]byte`) are modelled as `String`; the inputs in the claims
  are ASCII, where `String.trim` agrees with Go's `bytes.TrimSpace`.
-/

namespace Eazye

/-- An Email (src/eazye.go `Email`): the UID field and the parsed
`mail.Message`.  The parsed message is abstract here (the `String` produced by
the `readMessage` oracle). -/
structure Email where
  id : Nat
  message : String
  deriving DecidableEq, Repr

/-- A fetched record (`imap.FieldMap` of one `fCmd.Data` entry restricted to
the fields the code reads): the RFC822.HEADER field when present, the BODY[]
field, and the UID field. -/
structure RawRecord where
  header : Option String
  body : String
  uid : Nat
  deriving DecidableEq, Repr

/-- A Response (src/eazye.go `Response`): either an Email or a non-nil `Err`. -/
inductive Response where
  | email (e : Email)
  | error (msg : String)
  deriving DecidableEq, Repr

/-- One observable step of the worker: an emission into the channel, a
UIDFetch call, or a UIDStore call. -/
inductive Event where
  | emit (r : Response)
  | searchOp (specs : List String)
  | fetchOp (uids : List Nat)
  | storeOp (uid : Nat) (op : String) (flag : String)
  deriving DecidableEq, Repr

/-- The session oracle: outcomes of the external IMAP / stdlib calls.
`search` is `imap.Client.UIDSearch`, `fetch` is `UIDFetch`, `store` is
`UIDStore` (returning an error or nil), `readMessage` is
`mail.ReadMessage` on the assembled header+body buffer. -/
structure Session where
  search : List String → Except String (List Nat)
  fetch : List Nat → Except String (List RawRecord)
  store : Nat → String → String → Option String
  readMessage : String → Except String String

/-- newEmail (src/eazye.go 376-396): concatenate the RFC822.HEADER bytes, a
blank line, and the BODY[] bytes, and parse with `mail.ReadMessage`; on
failure wrap as "unable to read header: ...".  A missing field reads as empty
bytes (`imap.AsBytes` of nil). -/
def newEmail (s : Session) (r : RawRecord) : Except String Email :=
  match s.readMessage (r.header.getD "" ++ "\n\n" ++ r.body) with
  | .error e => .error ("unable to read header: " ++ e)
  | .ok msg => .ok { id := r.uid, message := msg }

/-- The delete step of the per-record loop (src/eazye.go 334-340): when
`delete` is set, issue `DeleteEmail` = `alterEmail(email, "\DELETED", true)`;
a failure emits the wrapped error and stops the loop.  Returns the events of
this step and whether the loop continues. -/
def deleteStep (s : Session) (del : Bool) (em : Email) : List Event × Bool :=
  if del then
    match s.store em.id "+FLAGS" "\\DELETED" with
    | some e =>
        ([Event.storeOp em.id "+FLAGS" "\\DELETED",
          Event.emit (Response.error ("unable to delete email: " ++ e))], false)
    | none => ([Event.storeOp em.id "+FLAGS" "\\DELETED"], true)
  else ([], true)

/-- The mark-unread step of the per-record loop (src/eazye.go 326-332): when
`markAsRead` is false, issue `SetAsUnread` = `alterEmail(email, "\SEEN",
false)`; a failure emits the wrapped error and stops the loop; otherwise the
delete step follows. -/
def unreadStep (s : Session) (markAsRead del : Bool) (em : Email) :
    List Event × Bool :=
  if markAsRead then deleteStep s del em
  else
    match s.store em.id "-FLAGS" "\\SEEN" with
    | some e =>
        ([Event.storeOp em.id "-FLAGS" "\\SEEN",
          Event.emit (Response.error ("unable to remove seen flag: " ++ e))], false)
    | none =>
        let rest := deleteStep s del em
        (Event.storeOp em.id "-FLAGS" "\\SEEN" :: rest.1, rest.2)

/-- One iteration of the record loop in getEmails (src/eazye.go 306-341):
skip a record lacking RFC822.HEADER (`continue`), fail the stream on a parse
error, else emit the Email and run the flag-mutation steps.  Returns the
events of the iteration and whether the loop continues. -/
def processRecord (s : Session) (markAsRead del : Bool) (r : RawRecord) :
    List Event × Bool :=
  match r.header with
  | none => ([], true)
  | some _ =>
    match newEmail s r with
    | .error e =>
        ([Event.emit (Response.error ("unable to parse email: " ++ e))], false)
    | .ok em =>
        let rest := unreadStep s markAsRead del em
        (Event.emit (Response.email em) :: rest.1, rest.2)

/-- The record loop of getEmails: iterate `processRecord` over the fetched
records, stopping after the first iteration that returns `false`. -/
def processRecords (s : Session) (markAsRead del : Bool) :
    List RawRecord → List Event
  | [] => []
  | r :: rest =>
    let step := processRecord s markAsRead del r
    if step.2 then step.1 ++ processRecords s markAsRead del rest
    else step.1

/-- getEmails (src/eazye.go 284-343): collect the search-result UIDs into a
sequence set; if empty return at once (no fetch, no store); else issue the
single UIDFetch for INTERNALDATE, BODY[], UID, RFC822.HEADER — a fetch error
emits the wrapped error and returns — then run the record loop. -/
def getEmails (s : Session) (uids : List Nat) (markAsRead del : Bool) :
    List Event :=
  if uids.isEmpty then []
  else
    Event.fetchOp uids ::
      match s.fetch uids with
      | .error e =>
          [Event.emit (Response.error ("unable to perform uid fetch: " ++ e))]
      | .ok records => processRecords s markAsRead del records

/-- A Go time.Month value, as formatted by layout element "Jan". -/
inductive Month where
  | jan | feb | mar | apr | may | jun | jul | aug | sep | oct | nov | dec
  deriving DecidableEq, Repr

/-- The three-letter English abbreviation Go's time.Format produces for the
"Jan" layout element. -/
def Month.abbrev : Month → String
  | .jan => "Jan" | .feb => "Feb" | .mar => "Mar" | .apr => "Apr"
  | .may => "May" | .jun => "Jun" | .jul => "Jul" | .aug => "Aug"
  | .sep => "Sep" | .oct => "Oct" | .nov => "Nov" | .dec => "Dec"

/-- A calendar date as far as the "02-Jan-2006" layout observes one. -/
structure Date where
  year : Nat
  month : Month
  day : Nat
  deriving DecidableEq, Repr

/-- Go's zero-padded fixed-width decimal (time.Format's appendInt): pad with
leading zeros to the requested width, keeping all digits when wider. -/
def padNat (w n : Nat) : String :=
  let s := toString n
  if s.length < w then String.mk (List.replicate (w - s.length) (Char.ofNat 48)) ++ s
  else s

/-- dateFormat (src/eazye.go 235) applied by time.Time.Format: the layout
"02-Jan-2006", i.e. two-digit zero-padded day, three-letter month, four-digit
zero-padded year. -/
def formatDate (d : Date) : String :=
  padNat 2 d.day ++ "-" ++ d.month.abbrev ++ "-" ++ padNat 4 d.year

/-- The search specs findEmails builds (src/eazye.go 238-247): the search
string when non-empty, then "SINCE" and the formatted date when a date was
given. -/
def buildSpecs (search : String) (since : Option Date) : List String :=
  (if search.length > 0 then [search] else []) ++
    (match since with
     | some d => ["SINCE", formatDate d]
     | none => [])

/-- findEmails (src/eazye.go 238-255): run UIDSearch on the built specs,
wrapping a failure as "uid search failed: ...".  The first component records
the single UIDSearch call issued, with the terms passed to it. -/
def findEmails (s : Session) (search : String) (since : Option Date) :
    Event × Except String (List Nat) :=
  (Event.searchOp (buildSpecs search since),
   match s.search (buildSpecs search since) with
   | .error e => .error ("uid search failed: " ++ e)
   | .ok uids => .ok uids)

/-- generateMail (src/eazye.go 259-282): spawn the worker (find the UIDs, on
failure emit the error as sole Response, else run getEmails; the deferred
close ends the stream) and return the channel together with the value the
shared `err` variable holds at the return statement — `err` is assigned only
inside the goroutine, so at the return it still holds its zero value `nil`.
The first component is the full event trace of the worker; the second is the
function's returned error. -/
def generateMail (s : Session) (search : String) (since : Option Date)
    (markAsRead del : Bool) : List Event × Option String :=
  let fr := findEmails s search since
  let events :=
    match fr.2 with
    | .error e => [Event.emit (Response.error e)]
    | .ok uids => getEmails s uids markAsRead del
  (fr.1 :: events, none)

/-- GenerateAll (src/eazye.go 111-113). -/
def generateAll (s : Session) (markAsRead del : Bool) :
    List Event × Option String :=
  generateMail s "ALL" none markAsRead del

/-- GenerateUnread (src/eazye.go 136-138). -/
def generateUnread (s : Session) (markAsRead del : Bool) :
    List Event × Option String :=
  generateMail s "UNSEEN" none markAsRead del

/-- GenerateSince (src/eazye.go 160-162). -/
def generateSince (s : Session) (since : Date) (markAsRead del : Bool) :
    List Event × Option String :=
  generateMail s "" (some since) markAsRead del

/-- The Responses pushed into the channel, read off the event trace. -/
def responsesOf (tr : List Event) : List Response :=
  tr.filterMap fun
    | Event.emit r => some r
    | _ => none

/-- Whether a Response carries a non-nil error. -/
def Response.isErr : Response → Bool
  | .email _ => false
  | .error _ => true

/-- The Email values carried by a list of Responses, in order. -/
def emailsOf (rs : List Response) : List Email :=
  rs.filterMap fun
    | Response.email e => some e
    | Response.error _ => none

/-- Whether newEmail succeeds on this record under this session. -/
def parseOk (s : Session) (r : RawRecord) : Bool :=
  match newEmail s r with
  | .ok _ => true
  | .error _ => false

/-- The Email newEmail builds from a record (defaulting arbitrarily when the
parse fails; used only under a `parseOk` hypothesis). -/
def recordEmail (s : Session) (r : RawRecord) : Email :=
  match newEmail s r with
  | .ok em => em
  | .error _ => { id := 0, message := "" }

/-- Whether an event is the emission of an error Response. -/
def isErrEmit : Event → Bool
  | .emit r => r.isErr
  | _ => false

/-- The UIDSearch calls a trace contains, each with its term list. -/
def issuedSearches (tr : List Event) : List (List String) :=
  tr.filterMap fun
    | Event.searchOp specs => some specs
    | _ => none

/-- The events one well-formed record contributes when every store call it
issues succeeds: the Email emission, then the "-FLAGS" "\SEEN" store when
markAsRead is false, then the "+FLAGS" "\DELETED" store when delete is set. -/
def okChunk (s : Session) (markAsRead del : Bool) (r : RawRecord) :
    List Event :=
  Event.emit (Response.email (recordEmail s r)) ::
    ((if markAsRead then [] else [Event.storeOp r.uid "-FLAGS" "\\SEEN"]) ++
      (if del then [Event.storeOp r.uid "+FLAGS" "\\DELETED"] else []))

/-- Checks that every emitted Email in the trace is immediately followed by
the "-FLAGS" "\SEEN" store call for its identifier. -/
def unreadFollows : List Event → Bool
  | [] => true
  | Event.emit (Response.email em) :: rest =>
    (match rest with
     | Event.storeOp u op flag :: _ =>
         u == em.id && op == "-FLAGS" && flag == "\\SEEN"
     | _ => false) && unreadFollows rest
  | _ :: rest => unreadFollows rest

/-- How many Emails with the given identifier the trace emits. -/
def emitCountFor (u : Nat) (tr : List Event) : Nat :=
  tr.countP fun
    | Event.emit (Response.email em) => em.id == u
    | _ => false

/-- How many "-FLAGS" "\SEEN" store calls for the given identifier the trace
issues. -/
def seenStoreCountFor (u : Nat) (tr : List Event) : Nat :=
  tr.countP fun
    | Event.storeOp v op flag => v == u && op == "-FLAGS" && flag == "\\SEEN"
    | _ => false

/-- Whether an event is a fetch or store operation on the session. -/
def isFetchOrStore : Event → Bool
  | .fetchOp _ => true
  | .storeOp _ _ _ => true
  | _ => false

/-- A token of golang.org/x/net/html's tokenizer as VisibleText's switch
observes it: a text token, a start tag, an end tag, or any of the remaining
kinds (self-closing tag, comment, doctype), which fall through the switch
unhandled.  The terminating ErrorToken is modelled separately as `TokEnd`. -/
inductive HtmlToken where
  | text (s : String)
  | startTag (name : String)
  | endTag (name : String)
  | other
  deriving DecidableEq, Repr

/-- How the token stream terminates: the tokenizer's ErrorToken either
reports io.EOF (the input — even one cut off mid-tag — is exhausted) or some
other read error. -/
inductive TokEnd where
  | eof
  | fail (e : String)
  deriving DecidableEq, Repr

/-- Go's unicode.IsSpace on the Latin-1 range (space, \t, \n, \v, \f, \r,
NEL, NBSP), which is what bytes.TrimSpace strips; the higher Unicode
White_Space code points do not occur in the claims' inputs. -/
def goIsSpace (c : Char) : Bool :=
  c == ' ' || c == Char.ofNat 9 || c == Char.ofNat 10 || c == Char.ofNat 11 ||
    c == Char.ofNat 12 || c == Char.ofNat 13 || c == Char.ofNat 133 ||
    c == Char.ofNat 160

/-- bytes.TrimSpace as VisibleText uses it (src/eazye.go 208): drop leading
and trailing white space. -/
def trimSpace (s : String) : String :=
  String.mk (((s.data.dropWhile goIsSpace).reverse.dropWhile goIsSpace).reverse)

/-- nonVisibleTags (src/eazye.go 170-189), in declaration order. -/
def nonVisibleTags : List String :=
  ["style", "script", "head", "meta", "doctype", "v:shape", "v:imagedata", "!"]

/-- The inner loop of VisibleText's tag case (src/eazye.go 218-223): scan the
nonVisibleTags slice; on the first name match set skip to whether the token
is a start tag and break; leave skip unchanged when nothing matches. -/
def updateSkip : List String → String → Bool → Bool → Bool
  | [], _, _, skip => skip
  | t :: rest, tn, isStart, skip =>
    if tn = t then isStart else updateSkip rest tn isStart skip

/-- The tokenizer loop of VisibleText (src/eazye.go 198-225), with `skip` and
the accumulated fragments threaded: text tokens are trimmed, dropped when
empty or suppressed, and appended as their own copy otherwise; tag tokens run
the nonVisibleTags scan; at the ErrorToken, io.EOF returns the fragments with
a nil error and any other error is returned with the fragments. -/
def visibleTextAux (skip : Bool) (acc : List String) :
    List HtmlToken → TokEnd → List String × Option String
  | [], .eof => (acc, none)
  | [], .fail e => (acc, some e)
  | HtmlToken.text s :: rest, fin =>
    if skip then visibleTextAux skip acc rest fin
    else
      let tmp := trimSpace s
      if tmp.length = 0 then visibleTextAux skip acc rest fin
      else visibleTextAux skip (acc ++ [tmp]) rest fin
  | HtmlToken.startTag tn :: rest, fin =>
    visibleTextAux (updateSkip nonVisibleTags tn true skip) acc rest fin
  | HtmlToken.endTag tn :: rest, fin =>
    visibleTextAux (updateSkip nonVisibleTags tn false skip) acc rest fin
  | HtmlToken.other :: rest, fin => visibleTextAux skip acc rest fin

/-- VisibleText (src/eazye.go 191-227) over the token stream the tokenizer
yields for the body: fragments in encounter order plus the returned error. -/
def visibleText (toks : List HtmlToken) (fin : TokEnd) :
    List String × Option String :=
  visibleTextAux false [] toks fin

/-- The spec's wording of the per-tag-token update: the flag becomes true on
a start tag whose name is in the fixed non-visible set, false on an end tag
whose name is in the set, and is otherwise unchanged. -/
def specUpdateSkip (tn : String) (isStart skip : Bool) : Bool :=
  if nonVisibleTags.contains tn then isStart else skip

/-- The mailbox flag state a store operation acts on, modelled from the spec:
each identifier carries a set of named flags. -/
def Mailbox := Nat → List String

/-- Modelled from the spec: the Session's `store(identifiers, "+FLAGS"|"-FLAGS",
flag)` operation (the go-imap UIDStore semantics are outside src/): with add
semantics the named flag is set (a no-op when already set), with remove
semantics it is cleared, and no error is returned. -/
def storeApply (mb : Mailbox) (uid : Nat) (plus : Bool) (flag : String) :
    Mailbox :=
  fun u =>
    if u = uid then
      if plus then (if flag ∈ mb u then mb u else mb u ++ [flag])
      else (mb u).filter (fun f => f ≠ flag)
    else mb u

/-- alterEmail (src/eazye.go 357-371) acting on the modelled mailbox state:
one UIDStore on the one-element set of the email's UID, with "+FLAGS" when
`plus` and "-FLAGS" otherwise; the store's (nil) error is propagated. -/
def alterEmailState (mb : Mailbox) (em : Email) (flag : String) (plus : Bool) :
    Mailbox × Option String :=
  (storeApply mb em.id plus flag, none)

/-- DeleteEmail (src/eazye.go 345-347): alterEmail with "\DELETED", add. -/
def deleteEmailState (mb : Mailbox) (em : Email) : Mailbox × Option String :=
  alterEmailState mb em "\\DELETED" true

/-- The spec's flat-flag extraction algorithm, worded as in the spec: the
suppressed flag becomes true on a start tag whose name is in the fixed
non-visible set and false on an end tag whose name is in the set; visible
text tokens are trimmed, dropped when empty, and appended in encounter
order.  Stated separately from `visibleTextAux` (which follows the source's
inner tag-scan loop) to compare the two. -/
def specVisibleTextAux (skip : Bool) (acc : List String) :
    List HtmlToken → TokEnd → List String × Option String
  | [], .eof => (acc, none)
  | [], .fail e => (acc, some e)
  | HtmlToken.text s :: rest, fin =>
    if skip then specVisibleTextAux skip acc rest fin
    else
      let tmp := trimSpace s
      if tmp.length = 0 then specVisibleTextAux skip acc rest fin
      else specVisibleTextAux skip (acc ++ [tmp]) rest fin
  | HtmlToken.startTag tn :: rest, fin =>
    specVisibleTextAux (specUpdateSkip tn true skip) acc rest fin
  | HtmlToken.endTag tn :: rest, fin =>
    specVisibleTextAux (specUpdateSkip tn false skip) acc rest fin
  | HtmlToken.other :: rest, fin => specVisibleTextAux skip acc rest fin

/-- The token stream golang.org/x/net/html produces for the spec's example
input <html><head><style>.a\x7b\x7d</style></head><body>Hi
<b>there</b></body></html>: raw text inside style stays one text token, and
the stream ends in clean EOF. -/
def c5Tokens : List HtmlToken :=
  [HtmlToken.startTag "html", HtmlToken.startTag "head",
   HtmlToken.startTag "style", HtmlToken.text ".a\x7b\x7d",
   HtmlToken.endTag "style", HtmlToken.endTag "head",
   HtmlToken.startTag "body", HtmlToken.text "Hi ", HtmlToken.startTag "b",
   HtmlToken.text "there", HtmlToken.endTag "b", HtmlToken.endTag "body",
   HtmlToken.endTag "html"]

/-- A session whose search returns two UIDs, whose fetch returns two
well-formed records, and whose unread-flag store fails for UID 1: the C1
claim's counterexample input. -/
def c1CexSession : Session :=
  { search := fun _ => Except.ok [1, 2]
    fetch := fun _ => Except.ok
      [{ header := some "From: a@b\n", body := "body1", uid := 1 },
       { header := some "From: c@d\n", body := "body2", uid := 2 }]
    store := fun uid op _ => if uid == 1 && op == "-FLAGS" then some "boom" else none
    readMessage := fun str => Except.ok str }

/-- The two well-formed records c1CexSession's fetch returns. -/
def c1CexRecords : List RawRecord :=
  [{ header := some "From: a@b\n", body := "body1", uid := 1 },
   { header := some "From: c@d\n", body := "body2", uid := 2 }]

/-- A fully successful one-record session, used to instantiate hypotheses at
a concrete input. -/
def c1WitSession : Session :=
  { search := fun _ => Except.ok [7]
    fetch := fun _ => Except.ok [{ header := some "H", body := "B", uid := 7 }]
    store := fun _ _ _ => none
    readMessage := fun str => Except.ok str }

/-- A session whose fetch returns a well-formed record, then a record lacking
the header field, then another well-formed record, with every store
succeeding. -/
def c4WitSession : Session :=
  { search := fun _ => Except.ok [1, 3]
    fetch := fun _ => Except.ok
      [{ header := some "H1", body := "B1", uid := 1 },
       { header := none, body := "", uid := 2 },
       { header := some "H3", body := "B3", uid := 3 }]
    store := fun _ _ _ => none
    readMessage := fun str => Except.ok str }

/-- Like c4WitSession, but the unread-flag store fails for UID 1: the C4
claim's counterexample input. -/
def c4CexSession : Session :=
  { search := fun _ => Except.ok [1, 3]
    fetch := fun _ => Except.ok
      [{ header := some "H1", body := "B1", uid := 1 },
       { header := none, body := "", uid := 2 },
       { header := some "H3", body := "B3", uid := 3 }]
    store := fun uid op _ => if uid == 1 && op == "-FLAGS" then some "boom" else none
    readMessage := fun str => Except.ok str }

/-- The records c4CexSession's fetch returns. -/
def c4CexRecords : List RawRecord :=
  [{ header := some "H1", body := "B1", uid := 1 },
   { header := none, body := "", uid := 2 },
   { header := some "H3", body := "B3", uid := 3 }]

/-- A two-record session whose unread-flag store fails for the second
record's UID: instantiates the C3 failure hypotheses. -/
def c3WitSession : Session :=
  { search := fun _ => Except.ok [1, 2]
    fetch := fun _ => Except.ok
      [{ header := some "H1", body := "B1", uid := 1 },
       { header := some "H2", body := "B2", uid := 2 }]
    store := fun uid op _ => if uid == 2 && op == "-FLAGS" then some "boom" else none
    readMessage := fun str => Except.ok str }

/-- A session whose search matches nothing. -/
def c8WitSession : Session :=
  { search := fun _ => Except.ok []
    fetch := fun _ => Except.error "fetch should never be called"
    store := fun _ _ _ => some "store should never be called"
    readMessage := fun str => Except.ok str }

/-- A session whose search fails. -/
def c10WitSession : Session :=
  { search := fun _ => Except.error "connection closed"
    fetch := fun _ => Except.error "unreachable"
    store := fun _ _ _ => none
    readMessage := fun str => Except.ok str }

/-- Checks that any error emission in the trace is the very last event: after
it, nothing is emitted and no session operation is issued. -/
def errTailOnly : List Event → Bool
  | [] => true
  | e :: rest => if isErrEmit e then rest.isEmpty else errTailOnly rest

/-- Checks that any error Response in the stream is its last item. -/
def errLast : List Response → Bool
  | [] => true
  | r :: rest => if r.isErr then rest.isEmpty else errLast rest

/-- A record the streaming loop handles without stopping: the header field is
present, newEmail succeeds, and every store call the loop issues for it (the
unread-flag removal when markAsRead is false, the deleted-flag addition when
delete is set) succeeds. -/
def goodRec (s : Session) (markAsRead del : Bool) (r : RawRecord) : Prop :=
  r.header.isSome = true ∧ parseOk s r = true ∧
    (markAsRead = false → s.store r.uid "-FLAGS" "\\SEEN" = none) ∧
    (del = true → s.store r.uid "+FLAGS" "\\DELETED" = none)

instance (s : Session) (m d : Bool) (r : RawRecord) :
    Decidable (goodRec s m d r) := by
  unfold goodRec
  exact inferInstance

lemma recordEmail_id (s : Session) (r : RawRecord) (h : parseOk s r = true) :
    (recordEmail s r).id = r.uid := by
  unfold parseOk recordEmail newEmail at *
  cases hm : s.readMessage (r.header.getD "" ++ "\n\n" ++ r.body) <;>
    simp [hm] at h ⊢

lemma processRecord_good (s : Session) (m d : Bool) (r : RawRecord)
    (h : goodRec s m d r) :
    processRecord s m d r = (okChunk s m d r, true) := by
  obtain ⟨hh, hp, hu, hd⟩ := h
  obtain ⟨hv, hhv⟩ := Option.isSome_iff_exists.mp hh
  have hid := recordEmail_id s r hp
  cases hne : newEmail s r with
  | error e => unfold parseOk at hp; rw [hne] at hp; simp at hp
  | ok em =>
    have hem : recordEmail s r = em := by unfold recordEmail; rw [hne]
    have hemid : em.id = r.uid := by rw [← hem]; exact hid
    unfold processRecord unreadStep deleteStep okChunk
    rw [hhv, hne, hem]
    cases m with
    | true =>
      cases d with
      | false => simp
      | true => simp [hemid, hd rfl]
    | false =>
      cases d with
      | false => simp [hemid, hu rfl]
      | true => simp [hemid, hu rfl, hd rfl]

lemma processRecords_append_good (s : Session) (m d : Bool)
    (A rest : List RawRecord) (hA : ∀ a ∈ A, goodRec s m d a) :
    processRecords s m d (A ++ rest) =
      (A.map (okChunk s m d)).flatten ++ processRecords s m d rest := by
  induction A with
  | nil => simp
  | cons a A ih =>
    have hstep := processRecord_good s m d a (hA a (List.mem_cons_self a A))
    have ih2 := ih (fun x hx => hA x (List.mem_cons_of_mem a hx))
    simp only [List.cons_append, processRecords, hstep]
    simp [ih2]

lemma processRecords_all_good (s : Session) (m d : Bool)
    (records : List RawRecord) (h : ∀ r ∈ records, goodRec s m d r) :
    processRecords s m d records = (records.map (okChunk s m d)).flatten := by
  have h2 := processRecords_append_good s m d records [] h
  simpa [processRecords] using h2

lemma responsesOf_append (a b : List Event) :
    responsesOf (a ++ b) = responsesOf a ++ responsesOf b := by
  unfold responsesOf
  exact List.filterMap_append a b _

lemma responsesOf_okChunk (s : Session) (m d : Bool) (r : RawRecord) :
    responsesOf (okChunk s m d r) = [Response.email (recordEmail s r)] := by
  unfold okChunk responsesOf
  cases m <;> cases d <;> simp

lemma responsesOf_okChunks (s : Session) (m d : Bool)
    (records : List RawRecord) :
    responsesOf ((records.map (okChunk s m d)).flatten) =
      records.map (fun r => Response.email (recordEmail s r)) := by
  induction records with
  | nil => simp [responsesOf]
  | cons r rs ih =>
    simp only [List.map_cons, List.flatten_cons]
    rw [responsesOf_append, responsesOf_okChunk, ih]
    simp

lemma processRecord_headerless (s : Session) (m d : Bool) (r : RawRecord)
    (h : r.header = none) : processRecord s m d r = ([], true) := by
  unfold processRecord
  rw [h]

lemma processRecords_skip (s : Session) (m d : Bool)
    (A B : List RawRecord) (pr : RawRecord) (h : pr.header = none) :
    processRecords s m d (A ++ pr :: B) = processRecords s m d (A ++ B) := by
  induction A with
  | nil =>
    simp only [List.nil_append, processRecords, processRecord_headerless s m d pr h]
    simp
  | cons a A ih =>
    simp only [List.cons_append, processRecords, List.append_eq]
    rw [ih]

lemma processRecord_unread_fail (s : Session) (d : Bool) (r : RawRecord)
    (hh : r.header.isSome = true) (hp : parseOk s r = true) (msg : String)
    (hs : s.store r.uid "-FLAGS" "\\SEEN" = some msg) :
    processRecord s false d r =
      ([Event.emit (Response.email (recordEmail s r)),
        Event.storeOp r.uid "-FLAGS" "\\SEEN",
        Event.emit (Response.error ("unable to remove seen flag: " ++ msg))],
       false) := by
  obtain ⟨hv, hhv⟩ := Option.isSome_iff_exists.mp hh
  have hid := recordEmail_id s r hp
  cases hne : newEmail s r with
  | error e => unfold parseOk at hp; rw [hne] at hp; simp at hp
  | ok em =>
    have hem : recordEmail s r = em := by unfold recordEmail; rw [hne]
    have hemid : em.id = r.uid := by rw [← hem]; exact hid
    unfold processRecord unreadStep
    rw [hhv, hne, hem]
    simp [hemid, hs]

lemma errTailOnly_append_clean (l t : List Event)
    (hl : ∀ ev ∈ l, isErrEmit ev = false) :
    errTailOnly (l ++ t) = errTailOnly t := by
  induction l with
  | nil => simp
  | cons e l ih =>
    have he := hl e (List.mem_cons_self e l)
    simp only [List.cons_append, errTailOnly, he]
    simp only [Bool.false_eq_true, if_false]
    exact ih (fun x hx => hl x (List.mem_cons_of_mem e hx))

lemma okChunk_clean (s : Session) (m d : Bool) (r : RawRecord) :
    ∀ ev ∈ okChunk s m d r, isErrEmit ev = false := by
  unfold okChunk
  cases m <;> cases d <;>
    simp [isErrEmit, Response.isErr]

lemma processRecord_errTail (s : Session) (m d : Bool) (r : RawRecord) :
    errTailOnly (processRecord s m d r).1 = true ∧
      ((processRecord s m d r).2 = true →
        ∀ ev ∈ (processRecord s m d r).1, isErrEmit ev = false) := by
  unfold processRecord unreadStep deleteStep
  cases r.header with
  | none => simp [errTailOnly]
  | some hv =>
    cases newEmail s r with
    | error e => simp [errTailOnly, isErrEmit, Response.isErr]
    | ok em =>
      cases m <;> cases d <;>
        cases hs1 : s.store em.id "-FLAGS" "\\SEEN" <;>
        cases hs2 : s.store em.id "+FLAGS" "\\DELETED" <;>
        simp [errTailOnly, isErrEmit, Response.isErr, hs1, hs2]

lemma processRecords_errTail (s : Session) (m d : Bool)
    (records : List RawRecord) :
    errTailOnly (processRecords s m d records) = true := by
  induction records with
  | nil => simp [processRecords, errTailOnly]
  | cons r rs ih =>
    obtain ⟨h1, h2⟩ := processRecord_errTail s m d r
    simp only [processRecords]
    cases hc : (processRecord s m d r).2 with
    | false => simpa [hc] using h1
    | true =>
      simp only [hc, if_true]
      rw [errTailOnly_append_clean _ _ (h2 hc)]
      exact ih

lemma getEmails_errTail (s : Session) (uids : List Nat) (m d : Bool) :
    errTailOnly (getEmails s uids m d) = true := by
  unfold getEmails
  cases he : uids.isEmpty with
  | true => simp [errTailOnly]
  | false =>
    cases s.fetch uids with
    | error e => simp [errTailOnly, isErrEmit, Response.isErr]
    | ok records =>
      simp only [Bool.false_eq_true, if_false, errTailOnly, isErrEmit]
      exact processRecords_errTail s m d records

lemma generateMail_errTail (s : Session) (search : String)
    (since : Option Date) (m d : Bool) :
    errTailOnly (generateMail s search since m d).1 = true := by
  unfold generateMail findEmails
  cases s.search (buildSpecs search since) with
  | error e => simp [errTailOnly, isErrEmit, Response.isErr]
  | ok uids =>
    simp only [errTailOnly, isErrEmit]
    exact getEmails_errTail s uids m d

lemma errLast_of_errTailOnly (tr : List Event)
    (h : errTailOnly tr = true) : errLast (responsesOf tr) = true := by
  induction tr with
  | nil => simp [responsesOf, errLast]
  | cons e rest ih =>
    cases e with
    | emit r =>
      cases hr : r.isErr with
      | true =>
        simp only [errTailOnly, isErrEmit, hr, if_true] at h
        have : rest = [] := List.isEmpty_iff.mp h
        subst this
        simp [responsesOf, errLast, hr]
      | false =>
        simp only [errTailOnly, isErrEmit, hr] at h
        simp only [Bool.false_eq_true, if_false] at h
        simpa [responsesOf, errLast, hr] using ih h
    | searchOp specs =>
      simp only [errTailOnly, isErrEmit] at h
      simpa [responsesOf] using ih (by simpa using h)
    | fetchOp uids =>
      simp only [errTailOnly, isErrEmit] at h
      simpa [responsesOf] using ih (by simpa using h)
    | storeOp u op flag =>
      simp only [errTailOnly, isErrEmit] at h
      simpa [responsesOf] using ih (by simpa using h)

lemma errLast_count (rs : List Response) (h : errLast rs = true) :
    rs.countP Response.isErr ≤ 1 := by
  induction rs with
  | nil => simp
  | cons r rest ih =>
    cases hr : r.isErr with
    | true =>
      simp only [errLast, hr, if_true] at h
      have : rest = [] := List.isEmpty_iff.mp h
      subst this
      simp [List.countP_cons, hr]
    | false =>
      simp only [errLast, hr] at h
      simp only [Bool.false_eq_true, if_false] at h
      simpa [List.countP_cons, hr] using ih h

lemma isEmpty_false_of_ne_nil {uids : List Nat} (h : uids ≠ []) :
    uids.isEmpty = false := by
  cases uids with
  | nil => exact absurd rfl h
  | cons a l => rfl

lemma generateMail_good (s : Session) (search : String) (since : Option Date)
    (m d : Bool) (uids : List Nat) (records : List RawRecord)
    (hs : s.search (buildSpecs search since) = Except.ok uids)
    (hne : uids ≠ [])
    (hf : s.fetch uids = Except.ok records)
    (hg : ∀ r ∈ records, goodRec s m d r) :
    (generateMail s search since m d).1 =
      Event.searchOp (buildSpecs search since) :: Event.fetchOp uids ::
        (records.map (okChunk s m d)).flatten := by
  unfold generateMail findEmails getEmails
  rw [hs]
  simp only [isEmpty_false_of_ne_nil hne, Bool.false_eq_true, if_false, hf]
  rw [processRecords_all_good s m d records hg]

lemma responsesOf_cons_searchOp (specs : List String) (l : List Event) :
    responsesOf (Event.searchOp specs :: l) = responsesOf l := by
  simp [responsesOf]

lemma responsesOf_cons_fetchOp (uids : List Nat) (l : List Event) :
    responsesOf (Event.fetchOp uids :: l) = responsesOf l := by
  simp [responsesOf]

lemma processRecord_no_searchOp (s : Session) (m d : Bool) (r : RawRecord) :
    issuedSearches (processRecord s m d r).1 = [] := by
  unfold processRecord unreadStep deleteStep
  cases r.header with
  | none => simp [issuedSearches]
  | some hv =>
    cases newEmail s r with
    | error e => simp [issuedSearches]
    | ok em =>
      cases m <;> cases d <;>
        cases hs1 : s.store em.id "-FLAGS" "\\SEEN" <;>
        cases hs2 : s.store em.id "+FLAGS" "\\DELETED" <;>
        simp [issuedSearches, hs1, hs2]

lemma issuedSearches_append (a b : List Event) :
    issuedSearches (a ++ b) = issuedSearches a ++ issuedSearches b := by
  unfold issuedSearches
  exact List.filterMap_append a b _

lemma processRecords_no_searchOp (s : Session) (m d : Bool)
    (records : List RawRecord) :
    issuedSearches (processRecords s m d records) = [] := by
  induction records with
  | nil => simp [processRecords, issuedSearches]
  | cons r rs ih =>
    simp only [processRecords]
    cases hc : (processRecord s m d r).2 with
    | false => simpa [hc] using processRecord_no_searchOp s m d r
    | true =>
      simp only [hc, if_true]
      rw [issuedSearches_append, processRecord_no_searchOp s m d r, ih]
      rfl

lemma getEmails_no_searchOp (s : Session) (uids : List Nat) (m d : Bool) :
    issuedSearches (getEmails s uids m d) = [] := by
  unfold getEmails
  cases he : uids.isEmpty with
  | true => simp [issuedSearches]
  | false =>
    cases s.fetch uids with
    | error e => simp [issuedSearches]
    | ok records =>
      simpa [issuedSearches] using processRecords_no_searchOp s m d records

lemma issuedSearches_generateMail (s : Session) (search : String)
    (since : Option Date) (m d : Bool) :
    issuedSearches (generateMail s search since m d).1 =
      [buildSpecs search since] := by
  unfold generateMail findEmails
  cases s.search (buildSpecs search since) with
  | error e => simp [issuedSearches]
  | ok uids =>
    simpa [issuedSearches] using getEmails_no_searchOp s uids m d

/-- C2: for every retrieval call, at most one Response with a non-nil error
is emitted; an error Response, if emitted, is the last item of the stream
before the (single, deferred) close; and once an error is emitted no further
event happens at all — no record after the failing one is processed and no
further session operation is issued (`errTailOnly` on the full trace). -/
theorem c2_error_is_terminal (s : Session) (search : String)
    (since : Option Date) (m d : Bool) :
    (responsesOf (generateMail s search since m d).1).countP Response.isErr ≤ 1 ∧
      errLast (responsesOf (generateMail s search since m d).1) = true ∧
      errTailOnly (generateMail s search since m d).1 = true := by
  have h3 := generateMail_errTail s search since m d
  have h2 := errLast_of_errTailOnly _ h3
  exact ⟨errLast_count _ h2, h2, h3⟩

/-- C7: the search terms issued to the session are exactly ["ALL"] for the
all-messages mode, ["UNSEEN"] for the unread mode, and ["SINCE", d] for the
since-date mode, where d is the date formatted with the fixed "02-Jan-2006"
pattern (two-digit zero-padded day, three-letter month, four-digit
zero-padded year), for every input date. -/
theorem c7_search_terms (s : Session) (m d : Bool) (dt : Date) :
    issuedSearches (generateAll s m d).1 = [["ALL"]] ∧
      issuedSearches (generateUnread s m d).1 = [["UNSEEN"]] ∧
      issuedSearches (generateSince s dt m d).1 = [["SINCE", formatDate dt]] ∧
      formatDate dt =
        padNat 2 dt.day ++ "-" ++ dt.month.abbrev ++ "-" ++ padNat 4 dt.year := by
  refine ⟨?_, ?_, ?_, rfl⟩
  · rw [generateAll, issuedSearches_generateMail]
    rfl
  · rw [generateUnread, issuedSearches_generateMail]
    rfl
  · rw [generateSince, issuedSearches_generateMail]
    rfl

/-- C8: when the search returns an empty identifier set, the stream closes
with zero emitted Email values and no error, no fetch or store operation is
issued (the whole trace is the single search call), and the function's error
return is nil. -/
theorem c8_empty_search (s : Session) (search : String) (since : Option Date)
    (m d : Bool) (h : s.search (buildSpecs search since) = Except.ok []) :
    (generateMail s search since m d).1 =
        [Event.searchOp (buildSpecs search since)] ∧
      responsesOf (generateMail s search since m d).1 = [] ∧
      ((generateMail s search since m d).1).countP isFetchOrStore = 0 ∧
      (generateMail s search since m d).2 = none := by
  have htr : (generateMail s search since m d).1 =
      [Event.searchOp (buildSpecs search since)] := by
    unfold generateMail findEmails getEmails
    rw [h]
    simp
  refine ⟨htr, ?_, ?_, rfl⟩
  · rw [htr]; rfl
  · rw [htr]; rfl

/-- C8 witness: a concrete session whose search matches nothing. -/
theorem c8_empty_search_witness :
    (generateMail c8WitSession "ALL" none true false).1 =
        [Event.searchOp (buildSpecs "ALL" none)] ∧
      responsesOf (generateMail c8WitSession "ALL" none true false).1 = [] ∧
      ((generateMail c8WitSession "ALL" none true false).1).countP
          isFetchOrStore = 0 ∧
      (generateMail c8WitSession "ALL" none true false).2 = none :=
  c8_empty_search c8WitSession "ALL" none true false rfl

/-- C10: GenerateAll, GenerateUnread and GenerateSince always return a nil
error value — the shared err variable is assigned only inside the spawned
worker, so the value read at the return statement is still nil — and a
search failure reaches the caller only as the sole Response on the channel,
wrapped as "uid search failed: ...". -/
theorem c10_nil_error_return (s : Session) (search : String)
    (since : Option Date) (m d : Bool) :
    (generateMail s search since m d).2 = none ∧
      (generateAll s m d).2 = none ∧
      (generateUnread s m d).2 = none ∧
      (∀ dt : Date, (generateSince s dt m d).2 = none) ∧
      ∀ e : String, s.search (buildSpecs search since) = Except.error e →
        responsesOf (generateMail s search since m d).1 =
          [Response.error ("uid search failed: " ++ e)] := by
  refine ⟨rfl, rfl, rfl, fun dt => rfl, fun e he => ?_⟩
  unfold generateMail findEmails
  rw [he]
  rfl

/-- C10 witness: a concrete session whose search fails with "connection
closed"; the function return is nil and the failure arrives on the channel. -/
theorem c10_nil_error_return_witness :
    (generateMail c10WitSession "ALL" none true false).2 = none ∧
      responsesOf (generateMail c10WitSession "ALL" none true false).1 =
        [Response.error ("uid search failed: " ++ "connection closed")] :=
  ⟨(c10_nil_error_return c10WitSession "ALL" none true false).1,
   (c10_nil_error_return c10WitSession "ALL" none true false).2.2.2.2
     "connection closed" rfl⟩

/-- C1 counterexample: the claim as stated fails on the code.  c1CexSession's
single search+fetch round-trip returns N = 2 well-formed records (header
present, parsing successfully), but with markAsRead = false and the
unread-flag store failing for UID 1, the stream emits only 1 Email response,
not 2. -/
theorem c1_counterexample :
    c1CexSession.search (buildSpecs "ALL" none) = Except.ok [1, 2] ∧
      c1CexSession.fetch [1, 2] = Except.ok c1CexRecords ∧
      c1CexRecords.length = 2 ∧
      c1CexRecords.all
        (fun r => r.header.isSome && parseOk c1CexSession r) = true ∧
      (emailsOf
        (responsesOf (generateMail c1CexSession "ALL" none false false).1)).length
        = 1 :=
  ⟨rfl, rfl, rfl, by decide, by decide⟩

/-- C1 (amended): for every retrieval call whose single search+fetch
round-trip returns N well-formed records (header-block field present,
parsing successfully), provided additionally that every flag-store call the
run issues succeeds, the output stream is exactly N Email responses in the
order of the fetch result, with no error. -/
theorem c1_emails_in_fetch_order (s : Session) (search : String)
    (since : Option Date) (m d : Bool) (uids : List Nat)
    (records : List RawRecord)
    (hs : s.search (buildSpecs search since) = Except.ok uids)
    (hne : uids ≠ [])
    (hf : s.fetch uids = Except.ok records)
    (hg : ∀ r ∈ records, goodRec s m d r) :
    responsesOf (generateMail s search since m d).1 =
      records.map (fun r => Response.email (recordEmail s r)) := by
  rw [generateMail_good s search since m d uids records hs hne hf hg,
    responsesOf_cons_searchOp, responsesOf_cons_fetchOp,
    responsesOf_okChunks]

/-- C1 witness: the amended theorem at a concrete fully successful
one-record session. -/
theorem c1_emails_in_fetch_order_witness :
    responsesOf (generateMail c1WitSession "ALL" none false false).1 =
      ([{ header := some "H", body := "B", uid := 7 }] : List RawRecord).map
        (fun r => Response.email (recordEmail c1WitSession r)) :=
  c1_emails_in_fetch_order c1WitSession "ALL" none false false [7]
    [{ header := some "H", body := "B", uid := 7 }]
    rfl (by decide) rfl (by decide)

/-- C4 counterexample: the claim as stated fails on the code.  c4CexSession
fetches N = 2 well-formed records with one header-less record inserted
between them; with markAsRead = false and the unread-flag store failing for
UID 1, only 1 Email is emitted, not 2 (the skip itself is error-free, but
the claim's "exactly N Email values" does not hold for every retrieval
call). -/
theorem c4_counterexample :
    c4CexSession.fetch [1, 3] = Except.ok c4CexRecords ∧
      c4CexRecords.length = 3 ∧
      (c4CexRecords.get ⟨1, by decide⟩).header = none ∧
      ((c4CexRecords.get ⟨0, by decide⟩).header.isSome &&
        parseOk c4CexSession (c4CexRecords.get ⟨0, by decide⟩)) = true ∧
      ((c4CexRecords.get ⟨2, by decide⟩).header.isSome &&
        parseOk c4CexSession (c4CexRecords.get ⟨2, by decide⟩)) = true ∧
      (emailsOf
        (responsesOf (generateMail c4CexSession "ALL" none false false).1)).length
        = 1 :=
  ⟨rfl, rfl, rfl, by decide, by decide, by decide⟩

/-- C4 (amended): a fetched record lacking the header-block field is skipped
without emitting any Response; for a fetch result of N well-formed records
with one such partial record inserted anywhere among them, provided every
flag-store call the run issues succeeds, exactly the N Emails are emitted,
relative order preserved, and no error is surfaced for the skipped record
(the stream contains no error at all). -/
theorem c4_partial_record_skipped (s : Session) (search : String)
    (since : Option Date) (m d : Bool) (uids : List Nat)
    (A B : List RawRecord) (pr : RawRecord)
    (hs : s.search (buildSpecs search since) = Except.ok uids)
    (hne : uids ≠ [])
    (hf : s.fetch uids = Except.ok (A ++ pr :: B))
    (hpr : pr.header = none)
    (hg : ∀ r ∈ A ++ B, goodRec s m d r) :
    responsesOf (generateMail s search since m d).1 =
      (A ++ B).map (fun r => Response.email (recordEmail s r)) := by
  have htr : (generateMail s search since m d).1 =
      Event.searchOp (buildSpecs search since) :: Event.fetchOp uids ::
        ((A ++ B).map (okChunk s m d)).flatten := by
    unfold generateMail findEmails getEmails
    rw [hs]
    simp only [isEmpty_false_of_ne_nil hne, Bool.false_eq_true, if_false, hf]
    rw [processRecords_skip s m d A B pr hpr,
      processRecords_all_good s m d (A ++ B) hg]
  rw [htr, responsesOf_cons_searchOp, responsesOf_cons_fetchOp,
    responsesOf_okChunks]

/-- C4 witness: the amended theorem at a concrete session fetching
well-formed, header-less, well-formed records with all stores succeeding. -/
theorem c4_partial_record_skipped_witness :
    responsesOf (generateMail c4WitSession "ALL" none false false).1 =
      ([{ header := some "H1", body := "B1", uid := 1 },
        { header := some "H3", body := "B3", uid := 3 }] : List RawRecord).map
        (fun r => Response.email (recordEmail c4WitSession r)) :=
  c4_partial_record_skipped c4WitSession "ALL" none false false [1, 3]
    [{ header := some "H1", body := "B1", uid := 1 }]
    [{ header := some "H3", body := "B3", uid := 3 }]
    { header := none, body := "", uid := 2 }
    rfl (by decide) rfl rfl (by decide)

lemma updateSkip_eq_contains (l : List String) (tn : String)
    (isStart skip : Bool) :
    updateSkip l tn isStart skip = if l.contains tn then isStart else skip := by
  induction l with
  | nil => simp [updateSkip]
  | cons t rest ih =>
    by_cases h : tn = t
    · subst h
      simp [updateSkip]
    · simp only [updateSkip, if_neg h, ih, List.contains_cons]
      have hbeq : (tn == t) = false := beq_false_of_ne h
      simp [hbeq]

lemma visibleTextAux_eq_spec (toks : List HtmlToken) (fin : TokEnd)
    (skip : Bool) (acc : List String) :
    visibleTextAux skip acc toks fin = specVisibleTextAux skip acc toks fin := by
  induction toks generalizing skip acc with
  | nil => cases fin <;> rfl
  | cons t rest ih =>
    cases t with
    | text str =>
      simp only [visibleTextAux, specVisibleTextAux]
      cases skip with
      | true => simp [ih]
      | false =>
        by_cases h : (trimSpace str).length = 0 <;> simp [h, ih]
    | startTag tn =>
      simp only [visibleTextAux, specVisibleTextAux, specUpdateSkip,
        updateSkip_eq_contains, ih]
    | endTag tn =>
      simp only [visibleTextAux, specVisibleTextAux, specUpdateSkip,
        updateSkip_eq_contains, ih]
    | other => simp only [visibleTextAux, specVisibleTextAux, ih]

lemma visibleTextAux_fin (toks : List HtmlToken) (fin : TokEnd)
    (skip : Bool) (acc : List String) :
    (visibleTextAux skip acc toks fin).1 =
        (visibleTextAux skip acc toks TokEnd.eof).1 ∧
      (visibleTextAux skip acc toks fin).2 =
        (match fin with | TokEnd.eof => none | TokEnd.fail e => some e) := by
  induction toks generalizing skip acc with
  | nil => cases fin <;> simp [visibleTextAux]
  | cons t rest ih =>
    cases t with
    | text str =>
      simp only [visibleTextAux]
      cases skip with
      | true => exact ih _ _
      | false =>
        by_cases h : (trimSpace str).length = 0 <;> simp [h] <;> exact ih _ _
    | startTag tn => simp only [visibleTextAux]; exact ih _ _
    | endTag tn => simp only [visibleTextAux]; exact ih _ _
    | other => simp only [visibleTextAux]; exact ih _ _

/-- C5: VisibleText computes exactly the flat-flag algorithm over the token
stream — the source's scan of the nonVisibleTags slice is the spec's "name
in the fixed set {style, script, head, meta, doctype, v:shape, v:imagedata,
!}" update of the single suppressed flag, the full loop coincides with the
spec's wording of the algorithm, and on the token stream of
<html><head><style>...</style></head><body>Hi <b>there</b></body></html>
the result is exactly the fragment sequence ["Hi", "there"]. -/
theorem c5_flat_flag_algorithm :
    (∀ (tn : String) (isStart skip : Bool),
        updateSkip nonVisibleTags tn isStart skip =
          specUpdateSkip tn isStart skip) ∧
      (∀ (toks : List HtmlToken) (fin : TokEnd),
        visibleText toks fin = specVisibleTextAux false [] toks fin) ∧
      visibleText c5Tokens TokEnd.eof = (["Hi", "there"], none) := by
  refine ⟨?_, ?_, by decide⟩
  · intro tn isStart skip
    rw [updateSkip_eq_contains]
    rfl
  · intro toks fin
    exact visibleTextAux_eq_spec toks fin false []

/-- C6: VisibleText treats end-of-stream (clean EOF, which is also what the
tokenizer reports for a stream cut off mid-tag) as success, returning all
fragments accumulated so far and a nil error, while any other read failure
is returned as the error together with the fragments accumulated before it
(the same fragments as in the EOF run of the same tokens). -/
theorem c6_eof_is_success (toks : List HtmlToken) (e : String) :
    (visibleText toks TokEnd.eof).2 = none ∧
      (visibleText toks (TokEnd.fail e)).2 = some e ∧
      (visibleText toks (TokEnd.fail e)).1 = (visibleText toks TokEnd.eof).1 := by
  obtain ⟨h1, h2⟩ := visibleTextAux_fin toks (TokEnd.fail e) false []
  obtain ⟨_, h4⟩ := visibleTextAux_fin toks TokEnd.eof false []
  exact ⟨h4, h2, h1⟩

/-- C9: MarkDeleted — and every other single-flag store operation — is
idempotent on the modelled mailbox state: calling DeleteEmail twice on the
same identifier leaves the deleted flag set exactly as after one call, the
second call returns no error, and the same holds for alterEmail with any
flag and either add or remove semantics. -/
theorem c9_markdeleted_idempotent (mb : Mailbox) (em : Email) :
    deleteEmailState (deleteEmailState mb em).1 em = deleteEmailState mb em ∧
      (deleteEmailState (deleteEmailState mb em).1 em).2 = none ∧
      ∀ (flag : String) (plus : Bool),
        alterEmailState (alterEmailState mb em flag plus).1 em flag plus =
          alterEmailState mb em flag plus := by
  have key : ∀ (flag : String) (plus : Bool),
      alterEmailState (alterEmailState mb em flag plus).1 em flag plus =
        alterEmailState mb em flag plus := by
    intro flag plus
    unfold alterEmailState storeApply
    refine Prod.ext ?_ rfl
    funext u
    by_cases hu : u = em.id
    · simp only [hu, if_pos rfl]
      cases plus with
      | true =>
        by_cases hf : flag ∈ mb em.id
        · simp [hf]
        · simp [hf]
      | false => simp [List.filter_filter]
    · simp [hu]
  exact ⟨key "\\DELETED" true, rfl, key⟩

lemma unreadFollows_chunk (s : Session) (d : Bool) (r : RawRecord)
    (t : List Event) :
    unreadFollows ((processRecord s false d r).1 ++ t) = unreadFollows t := by
  unfold processRecord unreadStep deleteStep
  cases r.header with
  | none => rfl
  | some hv =>
    cases newEmail s r with
    | error e => simp [unreadFollows]
    | ok em =>
      cases d <;>
        cases hs1 : s.store em.id "-FLAGS" "\\SEEN" <;>
        cases hs2 : s.store em.id "+FLAGS" "\\DELETED" <;>
        simp [unreadFollows, hs1, hs2]

lemma unreadFollows_processRecords (s : Session) (d : Bool)
    (records : List RawRecord) :
    unreadFollows (processRecords s false d records) = true := by
  induction records with
  | nil => simp [processRecords, unreadFollows]
  | cons r rs ih =>
    simp only [processRecords]
    cases hc : (processRecord s false d r).2 with
    | true =>
      simp only [hc, if_true]
      rw [unreadFollows_chunk]
      exact ih
    | false =>
      simp only [hc, Bool.false_eq_true, if_false]
      rw [← List.append_nil (processRecord s false d r).1,
        unreadFollows_chunk]
      rfl

lemma unreadFollows_generateMail (s : Session) (search : String)
    (since : Option Date) (d : Bool) :
    unreadFollows (generateMail s search since false d).1 = true := by
  unfold generateMail findEmails getEmails
  cases hsr : s.search (buildSpecs search since) with
  | error e => simp [unreadFollows]
  | ok uids =>
    cases he : uids.isEmpty with
    | true => simp [he, unreadFollows]
    | false =>
      cases hfr : s.fetch uids with
      | error e => simp [he, hfr, unreadFollows]
      | ok records =>
        simp only [he, hfr, Bool.false_eq_true, if_false, unreadFollows]
        exact unreadFollows_processRecords s d records

lemma counts_chunk (s : Session) (d : Bool) (r : RawRecord) (u : Nat) :
    emitCountFor u (processRecord s false d r).1 =
      seenStoreCountFor u (processRecord s false d r).1 := by
  unfold processRecord unreadStep deleteStep
  cases r.header with
  | none => rfl
  | some hv =>
    cases newEmail s r with
    | error e => simp [emitCountFor, seenStoreCountFor]
    | ok em =>
      cases d <;>
        cases hs1 : s.store em.id "-FLAGS" "\\SEEN" <;>
        cases hs2 : s.store em.id "+FLAGS" "\\DELETED" <;>
        simp [emitCountFor, seenStoreCountFor, hs1, hs2, List.countP_cons]

lemma counts_append (u : Nat) (a b : List Event) :
    emitCountFor u (a ++ b) = emitCountFor u a + emitCountFor u b ∧
      seenStoreCountFor u (a ++ b) =
        seenStoreCountFor u a + seenStoreCountFor u b := by
  unfold emitCountFor seenStoreCountFor
  exact ⟨List.countP_append _ a b, List.countP_append _ a b⟩

lemma counts_processRecords (s : Session) (d : Bool)
    (records : List RawRecord) (u : Nat) :
    emitCountFor u (processRecords s false d records) =
      seenStoreCountFor u (processRecords s false d records) := by
  induction records with
  | nil => rfl
  | cons r rs ih =>
    simp only [processRecords]
    cases hc : (processRecord s false d r).2 with
    | true =>
      simp only [hc, if_true]
      obtain ⟨h1, h2⟩ := counts_append u (processRecord s false d r).1
        (processRecords s false d rs)
      rw [h1, h2, counts_chunk s d r u, ih]
    | false =>
      simp only [hc, Bool.false_eq_true, if_false]
      exact counts_chunk s d r u

lemma counts_generateMail (s : Session) (search : String)
    (since : Option Date) (d : Bool) (u : Nat) :
    emitCountFor u (generateMail s search since false d).1 =
      seenStoreCountFor u (generateMail s search since false d).1 := by
  unfold generateMail findEmails getEmails
  cases hsr : s.search (buildSpecs search since) with
  | error e => rfl
  | ok uids =>
    cases he : uids.isEmpty with
    | true => simp [he, emitCountFor, seenStoreCountFor]
    | false =>
      cases hfr : s.fetch uids with
      | error e => simp [he, hfr, emitCountFor, seenStoreCountFor, List.countP_cons]
      | ok records =>
        simp only [he, hfr, Bool.false_eq_true, if_false]
        simpa [emitCountFor, seenStoreCountFor, List.countP_cons] using
          counts_processRecords s d records u

lemma generateMail_unread_fail (s : Session) (search : String)
    (since : Option Date) (d : Bool) (uids : List Nat)
    (A B : List RawRecord) (r : RawRecord) (msg : String)
    (hs : s.search (buildSpecs search since) = Except.ok uids)
    (hne : uids ≠ [])
    (hf : s.fetch uids = Except.ok (A ++ r :: B))
    (hA : ∀ a ∈ A, goodRec s false d a)
    (hrh : r.header.isSome = true) (hrp : parseOk s r = true)
    (hrs : s.store r.uid "-FLAGS" "\\SEEN" = some msg) :
    (generateMail s search since false d).1 =
      Event.searchOp (buildSpecs search since) :: Event.fetchOp uids ::
        ((A.map (okChunk s false d)).flatten ++
          [Event.emit (Response.email (recordEmail s r)),
           Event.storeOp r.uid "-FLAGS" "\\SEEN",
           Event.emit
             (Response.error ("unable to remove seen flag: " ++ msg))]) := by
  unfold generateMail findEmails getEmails
  rw [hs]
  simp only [isEmpty_false_of_ne_nil hne, Bool.false_eq_true, if_false, hf]
  rw [processRecords_append_good s false d A (r :: B) hA]
  simp only [processRecords, processRecord_unread_fail s d r hrh hrp msg hrs,
    Bool.false_eq_true, if_false]

/-- C3: when the caller passes markAsRead = false, every emitted Email is
immediately followed by exactly one "-FLAGS" "\SEEN" store call for its
identifier (the `unreadFollows` adjacency check holds on every such run, and
per identifier the store count equals the emitted-Email count); and when
that store call fails for the k-th message — here A lists the first k-1
records, r is the k-th — the trace is exactly the per-record events of A,
then r's Email emission, its failing store, and the FlagMutationError, so
the stream is messages 1..k followed by the error and nothing of B is
processed or mutated. -/
theorem c3_unread_flag_flow (s : Session) (search : String)
    (since : Option Date) (d : Bool) (uids : List Nat)
    (A B : List RawRecord) (r : RawRecord) (msg : String)
    (hs : s.search (buildSpecs search since) = Except.ok uids)
    (hne : uids ≠ [])
    (hf : s.fetch uids = Except.ok (A ++ r :: B))
    (hA : ∀ a ∈ A, goodRec s false d a)
    (hrh : r.header.isSome = true) (hrp : parseOk s r = true)
    (hrs : s.store r.uid "-FLAGS" "\\SEEN" = some msg) :
    (∀ (s2 : Session) (se : String) (si : Option Date) (d2 : Bool),
        unreadFollows (generateMail s2 se si false d2).1 = true ∧
          ∀ u : Nat,
            emitCountFor u (generateMail s2 se si false d2).1 =
              seenStoreCountFor u (generateMail s2 se si false d2).1) ∧
      (generateMail s search since false d).1 =
        Event.searchOp (buildSpecs search since) :: Event.fetchOp uids ::
          ((A.map (okChunk s false d)).flatten ++
            [Event.emit (Response.email (recordEmail s r)),
             Event.storeOp r.uid "-FLAGS" "\\SEEN",
             Event.emit
               (Response.error ("unable to remove seen flag: " ++ msg))]) ∧
      responsesOf (generateMail s search since false d).1 =
        A.map (fun a => Response.email (recordEmail s a)) ++
          [Response.email (recordEmail s r),
           Response.error ("unable to remove seen flag: " ++ msg)] := by
  have htr := generateMail_unread_fail s search since d uids A B r msg
    hs hne hf hA hrh hrp hrs
  refine ⟨fun s2 se si d2 =>
    ⟨unreadFollows_generateMail s2 se si d2,
     fun u => counts_generateMail s2 se si d2 u⟩, htr, ?_⟩
  rw [htr, responsesOf_cons_searchOp, responsesOf_cons_fetchOp,
    responsesOf_append, responsesOf_okChunks]
  simp [responsesOf]

/-- C3 witness: a concrete two-record session whose unread-flag store fails
for the second record's UID; the stream is message 1, message 2, then the
FlagMutationError. -/
theorem c3_unread_flag_flow_witness :
    responsesOf (generateMail c3WitSession "ALL" none false false).1 =
      ([{ header := some "H1", body := "B1", uid := 1 }] : List RawRecord).map
          (fun a => Response.email (recordEmail c3WitSession a)) ++
        [Response.email
           (recordEmail c3WitSession { header := some "H2", body := "B2", uid := 2 }),
         Response.error ("unable to remove seen flag: " ++ "boom")] :=
  (c3_unread_flag_flow c3WitSession "ALL" none false [1, 2]
    [{ header := some "H1", body := "B1", uid := 1 }] []
    { header := some "H2", body := "B2", uid := 2 } "boom"
    rfl (by decide) rfl (by decide) rfl (by decide) (by decide)).2.2

end Eazye
